import Mathlib

/-
Shallow embedding of the `drink` contract-testing library (core: `Session`,
`Record`, `MockRegistry`, mocking API, and the CLI selector computation),
together with theorems checking the natural-language specification against it.

Machine integers are modelled as `Nat` with explicit `% 2 ^ w` where overflow
matters (the mock-registry nonce is a `u8`, hash words are `u64`).  Fallible
operations return `Except`/`Option`; a Rust `panic!`/`expect` is modelled as
`Option.none` at the function's interface.
-/

namespace Drink

/-- Byte strings (`Vec<u8>` / `&[u8]`): each entry is one byte. -/
abbrev Bytes := List Nat

/-- Contract addresses (`H160`), modelled abstractly. -/
abbrev Addr := Nat

/-- Account identifiers (`AccountIdFor<Runtime>`), modelled abstractly. -/
abbrev Account := Nat

/-- Runtime origins (`RuntimeOrigin`), modelled abstractly. -/
abbrev Origin := Nat

/-- Runtime event records (`EventRecordOf<Config>`), modelled abstractly. -/
abbrev Event := Nat

/-- Sandbox-level dispatch errors (`DispatchError`), modelled abstractly. -/
abbrev DispatchError := Nat

/-! ## BLAKE2b-256 (`sp_core::blake2_256`), RFC 7693

`drink-cli`'s `compute_selector` truncates this hash; the full algorithm is
embedded so that the selector claim is about the real 256-bit digest. -/

/-- `2 ^ 64`, the modulus for 64-bit words. -/
def U64 : Nat := 2 ^ 64

/-- Right rotation of a 64-bit word. -/
def rotr64 (x n : Nat) : Nat := ((x >>> n) ||| (x <<< (64 - n))) % U64

/-- BLAKE2b initialization vector (RFC 7693 §2.6). -/
def IV : List Nat :=
  [0x6a09e667f3bcc908, 0xbb67ae8584caa73b, 0x3c6ef372fe94f82b,
   0xa54ff53a5f1d36f1, 0x510e527fade682d1, 0x9b05688c2b3e6c1f,
   0x1f83d9abfb41bd6b, 0x5be0cd19137e2179]

/-- BLAKE2 message-schedule permutations (RFC 7693 §2.7). -/
def SIGMA : List (List Nat) :=
  [[0, 1, 2, 3, 4, 5, 6, 7, 8, 9, 10, 11, 12, 13, 14, 15],
   [14, 10, 4, 8, 9, 15, 13, 6, 1, 12, 0, 2, 11, 7, 5, 3],
   [11, 8, 12, 0, 5, 2, 15, 13, 10, 14, 3, 6, 7, 1, 9, 4],
   [7, 9, 3, 1, 13, 12, 11, 14, 2, 6, 5, 10, 4, 0, 15, 8],
   [9, 0, 5, 7, 2, 4, 10, 15, 14, 1, 11, 12, 6, 8, 3, 13],
   [2, 12, 6, 10, 0, 11, 8, 3, 4, 13, 7, 5, 15, 14, 1, 9],
   [12, 5, 1, 15, 14, 13, 4, 10, 0, 7, 6, 3, 9, 2, 8, 11],
   [13, 11, 7, 14, 12, 1, 3, 9, 5, 0, 15, 4, 8, 6, 2, 10],
   [6, 15, 14, 9, 11, 3, 0, 8, 12, 2, 13, 7, 1, 4, 10, 5],
   [10, 2, 8, 4, 7, 6, 1, 5, 15, 11, 9, 14, 3, 12, 13, 0]]

/-- The BLAKE2 mixing function G on the 16-word work vector (RFC 7693 §3.1). -/
def gmix (v : List Nat) (a b c d x y : Nat) : List Nat :=
  let va := v.getD a 0
  let vb := v.getD b 0
  let vc := v.getD c 0
  let vd := v.getD d 0
  let a1 := (va + vb + x) % U64
  let d1 := rotr64 (vd ^^^ a1) 32
  let c1 := (vc + d1) % U64
  let b1 := rotr64 (vb ^^^ c1) 24
  let a2 := (a1 + b1 + y) % U64
  let d2 := rotr64 (d1 ^^^ a2) 16
  let c2 := (c1 + d2) % U64
  let b2 := rotr64 (b1 ^^^ c2) 63
  (((v.set a a2).set b b2).set c c2).set d d2

/-- One round of the BLAKE2b compression: four column mixes, four diagonal
mixes, message words selected by the round's sigma permutation. -/
def blakeRound (m v s : List Nat) : List Nat :=
  let mi := fun i => m.getD (s.getD i 0) 0
  let v := gmix v 0 4 8 12 (mi 0) (mi 1)
  let v := gmix v 1 5 9 13 (mi 2) (mi 3)
  let v := gmix v 2 6 10 14 (mi 4) (mi 5)
  let v := gmix v 3 7 11 15 (mi 6) (mi 7)
  let v := gmix v 0 5 10 15 (mi 8) (mi 9)
  let v := gmix v 1 6 11 12 (mi 10) (mi 11)
  let v := gmix v 2 7 8 13 (mi 12) (mi 13)
  gmix v 3 4 9 14 (mi 14) (mi 15)

/-- The BLAKE2b compression function F (RFC 7693 §3.2): 12 rounds. -/
def compress (h m : List Nat) (t : Nat) (last : Bool) : List Nat :=
  let v := h ++ IV
  let v := v.set 12 ((v.getD 12 0) ^^^ (t % U64))
  let v := v.set 13 ((v.getD 13 0) ^^^ (t / U64 % U64))
  let v := if last then v.set 14 ((v.getD 14 0) ^^^ (U64 - 1)) else v
  let v := (List.range 12).foldl (fun w i => blakeRound m w (SIGMA.getD (i % 10) [])) v
  (List.range 8).map (fun i => (h.getD i 0) ^^^ (v.getD i 0) ^^^ (v.getD (i + 8) 0))

/-- Little-endian interpretation of a byte list as one word. -/
def leWord (bs : Bytes) : Nat := bs.foldr (fun b acc => acc * 256 + b % 256) 0

/-- The sixteen 64-bit message words of one (implicitly zero-padded) block. -/
def blockWords (b : Bytes) : List Nat :=
  (List.range 16).map (fun i => leWord ((b.drop (8 * i)).take 8))

/-- Splitting worker, structurally recursive on a fuel bound so that it
computes by kernel reduction; the fuel is always sufficient (`l.length`),
so the `0` branch is unreachable for the intended calls. -/
def toBlocksAux : Nat → Bytes → List Bytes
  | 0, l => [l]
  | fuel + 1, l =>
    if l.length ≤ 128 then [l]
    else l.take 128 :: toBlocksAux fuel (l.drop 128)

/-- Split a message into 128-byte blocks; an empty message yields one
(empty, hence zero-padded) block, exactly as RFC 7693 prescribes. -/
def toBlocks (l : Bytes) : List Bytes :=
  toBlocksAux l.length l

/-- Sequentially compress all blocks; `done` counts bytes already consumed,
`total` is the full message length (the final block's byte counter). -/
def blakeLoop (h : List Nat) (blocks : List Bytes) (done total : Nat) : List Nat :=
  match blocks with
  | [] => h
  | [b] => compress h (blockWords b) total true
  | b :: rest => blakeLoop (compress h (blockWords b) (done + 128) false) rest (done + 128) total

/-- Serialize a word into `n` little-endian bytes. -/
def natLEBytes (n x : Nat) : Bytes := (List.range n).map (fun i => x / 256 ^ i % 256)

/-- BLAKE2b with a 32-byte digest and no key (`sp_core::blake2_256`):
the parameter block xors `0x01010020` (depth 1, fanout 1, digest length 32)
into the first IV word. -/
def blake2_256 (msg : Bytes) : Bytes :=
  let h0 := IV.set 0 ((IV.getD 0 0) ^^^ 0x01010020)
  let hFinal := blakeLoop h0 (toBlocks msg) 0 msg.length
  (List.range 4).flatMap (fun i => natLEBytes 8 (hFinal.getD i 0))

/-- UTF-8 bytes of a string (`str::as_bytes`). -/
def strBytes (s : String) : Bytes := s.toUTF8.toList.map (fun b => b.toNat)

/-- `compute_selector` from `drink-cli/src/executor/contract.rs`:
`blake2_256(name)[..4].to_vec()`. -/
def compute_selector (name : String) : Bytes :=
  (blake2_256 (strBytes name)).take 4

/-! ## Mock registry (`src/drink/src/session/mock.rs`) -/

/-- A mock handler (`ContractMock`).  Its internal structure (selector-keyed
message handlers) is opaque to the registry and to `MockingApi::deploy`, which
only store and look it up, so it is modelled abstractly. -/
abbrev ContractMock := Nat

/-- `MockRegistry`: address-to-mock map plus the salt nonce.
The nonce is a `u8` in the source, so its arithmetic is modulo `256`. -/
structure MockRegistry where
  mocked_contracts : List (Addr × ContractMock)
  nonce : Nat
  deriving DecidableEq

/-- `MockRegistry::new`. -/
def MockRegistry.new : MockRegistry := { mocked_contracts := [], nonce := 0 }

/-- `MockRegistry::salt`: increments the `u8` nonce (wrapping modulo 256) and
returns a 32-byte salt whose low `size_of::<u8>() = 1` bytes are the nonce in
little-endian form and whose remaining bytes are zero. -/
def MockRegistry.salt (r : MockRegistry) : MockRegistry × Bytes :=
  let nonce := (r.nonce + 1) % 256
  let salt := nonce :: List.replicate 31 0
  ({ r with nonce := nonce }, salt)

/-- `MockRegistry::register`: inserts `mock` at `address`, returning the
previously registered mock, if any (`BTreeMap::insert`). -/
def MockRegistry.register (r : MockRegistry) (address : Addr) (mock : ContractMock) :
    MockRegistry × Option ContractMock :=
  ({ r with mocked_contracts := (address, mock) :: r.mocked_contracts },
   r.mocked_contracts.lookup address)

/-- `MockRegistry::get`. -/
def MockRegistry.get (r : MockRegistry) (address : Addr) : Option ContractMock :=
  r.mocked_contracts.lookup address

/-- The salts produced by `n` consecutive `salt()` calls on registry `r`. -/
def salts (r : MockRegistry) : Nat → List Bytes
  | 0 => []
  | n + 1 =>
    let (r', s) := r.salt
    s :: salts r' n

/-! ## Sandbox result types (from `ink_sandbox` / `pallet_revive`, the
external execution engine; only the shape that `Session` inspects) -/

/-- `ExecReturnValue`: revert flag plus output data. -/
structure ExecReturnValue where
  did_revert : Bool
  data : Bytes
  deriving DecidableEq

/-- `InstantiateReturnValue`: the execution result plus the new address. -/
structure InstantiateReturnValue where
  result : ExecReturnValue
  addr : Addr
  deriving DecidableEq

instance {ε α : Type} [DecidableEq ε] [DecidableEq α] : DecidableEq (Except ε α) := fun x y =>
  match x, y with
  | .error a, .error b => decidable_of_iff (a = b) (by simp)
  | .error _, .ok _ => isFalse (fun h => Except.noConfusion h)
  | .ok _, .error _ => isFalse (fun h => Except.noConfusion h)
  | .ok a, .ok b => decidable_of_iff (a = b) (by simp)

/-- `ContractResultInstantiate`: the full deploy outcome
(`result` distinguishes dispatch-level failure from execution). -/
structure ContractResultInstantiate where
  result : Except DispatchError InstantiateReturnValue
  deriving DecidableEq

/-- `ContractExecResultFor`: the full call outcome. -/
structure ContractExecResult where
  result : Except DispatchError ExecReturnValue
  deriving DecidableEq

/-! ## Session errors (`src/drink/src/session/error.rs`, variants as used
throughout `src/drink/src/session.rs`) -/

/-- `SessionError`. -/
inductive SessionError where
  | Encoding (reason : String)
  | Decoding (reason : String)
  | NoContract
  | NoTranscoder
  | DeploymentReverted
  | DeploymentFailed (err : DispatchError)
  | CallReverted (payload : Bytes)
  | CallFailed (err : DispatchError)
  | UploadFailed (err : DispatchError)
  deriving DecidableEq

/-! ## Execution record (`src/drink/src/session/record.rs`) -/

/-- `Record`: parallel append-only histories of contract interaction.
Event batches are stored as plain event lists (`EventBatch.events`). -/
structure Record where
  deploy_results : List ContractResultInstantiate
  deploy_returns : List Addr
  call_results : List ContractExecResult
  call_returns : List Bytes
  event_batches : List (List Event)
  deriving DecidableEq

/-- The empty record (`Record::default`). -/
def Record.empty : Record :=
  { deploy_results := [], deploy_returns := [], call_results := [],
    call_returns := [], event_batches := [] }

/-- `Record::push_deploy_result`. -/
def Record.push_deploy_result (r : Record) (result : ContractResultInstantiate) : Record :=
  { r with deploy_results := r.deploy_results ++ [result] }

/-- `Record::push_deploy_return`. -/
def Record.push_deploy_return (r : Record) (return_value : Addr) : Record :=
  { r with deploy_returns := r.deploy_returns ++ [return_value] }

/-- `Record::push_call_result`. -/
def Record.push_call_result (r : Record) (result : ContractExecResult) : Record :=
  { r with call_results := r.call_results ++ [result] }

/-- `Record::push_call_return`. -/
def Record.push_call_return (r : Record) (return_value : Bytes) : Record :=
  { r with call_returns := r.call_returns ++ [return_value] }

/-- `Record::push_event_batches`: wraps the events in one `EventBatch` and
appends it. -/
def Record.push_event_batches (r : Record) (events : List Event) : Record :=
  { r with event_batches := r.event_batches ++ [events] }

/-- `Record::last_deploy_result`; `none` models the `expect` panic. -/
def Record.last_deploy_result (r : Record) : Option ContractResultInstantiate :=
  r.deploy_results.getLast?

/-- `Record::last_deploy_return`; `none` models the `expect` panic. -/
def Record.last_deploy_return (r : Record) : Option Addr :=
  r.deploy_returns.getLast?

/-- `Record::last_call_result`; `none` models the `expect` panic. -/
def Record.last_call_result (r : Record) : Option ContractExecResult :=
  r.call_results.getLast?

/-- `Record::last_call_return`; `none` models the `expect` panic. -/
def Record.last_call_return (r : Record) : Option Bytes :=
  r.call_returns.getLast?

/-- `Record::last_event_batch`; `none` models the `expect` panic. -/
def Record.last_event_batch (r : Record) : Option (List Event) :=
  r.event_batches.getLast?

/-- `Record::last_call_return_decoded::<V>`: decodes the most recent call
return; the SCALE decoder for `MessageResult<V>` is an external collaborator,
passed as `dec`.  The outer `none` models the `last_call_return` panic. -/
def Record.last_call_return_decoded {V : Type} (dec : Bytes → Except String V) (r : Record) :
    Option (Except SessionError V) :=
  r.last_call_return.map (fun raw => (dec raw).mapError (fun e => SessionError.Decoding e))

/-! ## Transcoders (`src/drink/src/session/transcoding.rs`; the transcoder
itself is an external collaborator, modelled by its `encode` entry point) -/

/-- `ContractMessageTranscoder` (external): encodes a message name and
string-rendered arguments into call data, or fails. -/
structure ContractMessageTranscoder where
  encode : String → List String → Except String Bytes

/-- `TranscoderRegistry`. -/
structure TranscoderRegistry where
  transcoders : List (Addr × ContractMessageTranscoder)

/-- `TranscoderRegistry::new`. -/
def TranscoderRegistry.new : TranscoderRegistry := { transcoders := [] }

/-- `TranscoderRegistry::register` (`BTreeMap::insert`: the new binding
shadows any previous one for `get`). -/
def TranscoderRegistry.register (reg : TranscoderRegistry) (contract : Addr)
    (transcoder : ContractMessageTranscoder) : TranscoderRegistry :=
  { transcoders := (contract, transcoder) :: reg.transcoders }

/-- `TranscoderRegistry::get`. -/
def TranscoderRegistry.get (reg : TranscoderRegistry) (contract : Addr) :
    Option ContractMessageTranscoder :=
  reg.transcoders.lookup contract

/-! ## Sandbox interface (`ink_sandbox::Sandbox`, the external execution
engine, §6 of the spec).  `Session` is generic over the sandbox, so the
embedding is parameterized by a sandbox state type `σ` and its operations. -/

/-- `DepositLimit` (from `ink_primitives`). -/
inductive DepositLimit where
  | Balance (value : Nat)
  | Unchecked
  deriving DecidableEq

/-- Arguments of `Sandbox::deploy_contract`, in source order. -/
structure DeployArgs where
  contract_bytes : Bytes
  value : Nat
  data : Bytes
  salt : Option Bytes
  origin : Origin
  gas_limit : Nat
  storage_deposit_limit : DepositLimit
  deriving DecidableEq

/-- Arguments of `Sandbox::call_contract`, in source order. -/
structure CallArgs where
  address : Addr
  value : Nat
  data : Bytes
  origin : Origin
  gas_limit : Nat
  storage_deposit_limit : DepositLimit
  deriving DecidableEq

/-- The sandbox operations consumed by `Session`, as a state machine over a
sandbox state `σ`.  `events` exposes the process-global, append-only event
log; `parse_wat` is `wat::parse_str` (total here: it is only applied to the
fixed, valid dummy-contract body). -/
structure SandboxOps (σ : Type) where
  deploy_contract : σ → DeployArgs → σ × ContractResultInstantiate
  call_contract : σ → CallArgs → σ × ContractExecResult
  upload_contract : σ → Bytes → Origin → Nat → σ × Except DispatchError Nat
  events : σ → List Event
  convert_account_to_origin : Account → Origin
  default_actor : Account
  default_gas_limit : Nat
  map_account : σ → Origin → σ
  parse_wat : String → Bytes

/-! ## Session (`src/drink/src/session.rs`) -/

/-- `DEFAULT_STORAGE_DEPOSIT_LIMIT`. -/
def DEFAULT_STORAGE_DEPOSIT_LIMIT : Nat := 1000000

/-- The `Session` state.  The `Arc<Mutex<MockRegistry>>` is inlined: every
session operation is synchronous and runs to completion, so in this
single-threaded model the registry is plain owned state. -/
structure Session (σ : Type) where
  sandbox : σ
  actor : Account
  origin : Origin
  gas_limit : Nat
  storage_deposit_limit : Nat
  transcoders : TranscoderRegistry
  record : Record
  mocks : MockRegistry

/-- `Session::default`: default actor, its derived origin mapped with the
sandbox, default gas limit, default deposit limit, empty registries. -/
def Session.mkDefault {σ : Type} (ops : SandboxOps σ) (sandbox0 : σ) : Session σ :=
  let actor := ops.default_actor
  let origin := ops.convert_account_to_origin actor
  { sandbox := ops.map_account sandbox0 origin
    actor := actor
    origin := origin
    gas_limit := ops.default_gas_limit
    storage_deposit_limit := DEFAULT_STORAGE_DEPOSIT_LIMIT
    transcoders := TranscoderRegistry.new
    record := Record.empty
    mocks := MockRegistry.new }

/-- `Session::with_actor`: `Self { actor, ..self }` — only the actor field
changes. -/
def Session.with_actor {σ : Type} (s : Session σ) (actor : Account) : Session σ :=
  { s with actor := actor }

/-- `Session::set_actor`.  In the source,
`let actor = mem::replace(&mut self.actor, actor);` rebinds the local `actor`
to the PREVIOUS actor; the origin computed below is therefore derived from
the previous actor, and it is that origin which is mapped and stored. -/
def Session.set_actor {σ : Type} (ops : SandboxOps σ) (s : Session σ) (actor : Account) :
    Session σ × Account :=
  let prev := s.actor
  let s1 := { s with actor := actor }
  let origin := ops.convert_account_to_origin prev
  let s2 := { s1 with sandbox := ops.map_account s1.sandbox origin }
  let s3 := { s2 with origin := origin }
  (s3, prev)

/-- `Session::with_gas_limit`. -/
def Session.with_gas_limit {σ : Type} (s : Session σ) (gas_limit : Nat) : Session σ :=
  { s with gas_limit := gas_limit }

/-- `Session::set_gas_limit`: returns the old value. -/
def Session.set_gas_limit {σ : Type} (s : Session σ) (gas_limit : Nat) : Session σ × Nat :=
  ({ s with gas_limit := gas_limit }, s.gas_limit)

/-- `Session::with_storage_deposit_limit`. -/
def Session.with_storage_deposit_limit {σ : Type} (s : Session σ) (l : Nat) : Session σ :=
  { s with storage_deposit_limit := l }

/-- `Session::set_storage_deposit_limit`: returns the old value. -/
def Session.set_storage_deposit_limit {σ : Type} (s : Session σ) (l : Nat) : Session σ × Nat :=
  ({ s with storage_deposit_limit := l }, s.storage_deposit_limit)

/-- `Session::set_transcoder`. -/
def Session.set_transcoder {σ : Type} (s : Session σ) (contract_address : Addr)
    (transcoder : ContractMessageTranscoder) : Session σ :=
  { s with transcoders := s.transcoders.register contract_address transcoder }

/-- `Session::record_events`: snapshot the global event-log length, run the
recording closure, slice the log from the snapshot, push the slice as one
event batch. -/
def Session.record_events {σ α : Type} (ops : SandboxOps σ) (s : Session σ)
    (recording : Session σ → Session σ × α) : Session σ × α :=
  let start := (ops.events s.sandbox).length
  let res := recording s
  let events := (ops.events res.1.sandbox).drop start
  ({ res.1 with record := res.1.record.push_event_batches events }, res.2)

/-- The `DeployArgs` that `Session::deploy` passes to the sandbox. -/
def Session.deploy_args {σ : Type} (ops : SandboxOps σ) (s : Session σ)
    (contract_bytes data : Bytes) (salt : Option Bytes) (endowment : Option Nat) : DeployArgs :=
  { contract_bytes := contract_bytes
    value := endowment.getD 0
    data := data
    salt := salt
    origin := ops.convert_account_to_origin s.actor
    gas_limit := s.gas_limit
    storage_deposit_limit := .Balance s.storage_deposit_limit }

/-- `Session::deploy`. -/
def Session.deploy {σ : Type} (ops : SandboxOps σ) (s : Session σ) (contract_bytes : Bytes)
    (constructor : String) (args : List String) (salt : Option Bytes)
    (endowment : Option Nat) (transcoder : ContractMessageTranscoder) :
    Session σ × Except SessionError Addr :=
  match transcoder.encode constructor args with
  | .error err => (s, .error (.Encoding err))
  | .ok data =>
    let step := Session.record_events ops s (fun sess =>
      let res := ops.deploy_contract sess.sandbox
        (Session.deploy_args ops sess contract_bytes data salt endowment)
      ({ sess with sandbox := res.1 }, res.2))
    let s1 := step.1
    let result := step.2
    let step2 : Session σ × Except SessionError Addr :=
      match result.result with
      | .ok exec_result =>
        if exec_result.result.did_revert then
          (s1, .error .DeploymentReverted)
        else
          ({ s1 with
              record := s1.record.push_deploy_return exec_result.addr
              transcoders := s1.transcoders.register exec_result.addr transcoder },
           .ok exec_result.addr)
      | .error err => (s1, .error (.DeploymentFailed err))
    ({ step2.1 with record := step2.1.record.push_deploy_result result }, step2.2)

/-- `Session::upload`. -/
def Session.upload {σ : Type} (ops : SandboxOps σ) (s : Session σ) (contract_bytes : Bytes) :
    Session σ × Except SessionError Nat :=
  let res := ops.upload_contract s.sandbox contract_bytes s.origin s.storage_deposit_limit
  ({ s with sandbox := res.1 },
   match res.2 with
   | .ok code_hash => .ok code_hash
   | .error err => .error (.UploadFailed err))

/-- The target-address resolution at the top of `Session::call_internal`:
an explicit address, or else the most recently deployed address. -/
def Session.resolve_addr {σ : Type} (s : Session σ) (address : Option Addr) : Option Addr :=
  match address with
  | some address => some address
  | none => s.record.deploy_returns.getLast?

/-- The `CallArgs` that `Session::call_internal` passes to the sandbox. -/
def Session.call_args {σ : Type} (ops : SandboxOps σ) (s : Session σ) (address : Addr)
    (data : Bytes) (endowment : Option Nat) : CallArgs :=
  { address := address
    value := endowment.getD 0
    data := data
    origin := ops.convert_account_to_origin s.actor
    gas_limit := s.gas_limit
    storage_deposit_limit := .Balance s.storage_deposit_limit }

/-- `Session::call_internal`, generic over the requested result type `V`
whose SCALE decoder is the external `dec` (`MessageResult::<V>::decode`).
The `getD` fallback on the decode step is dead code: the return value has
just been pushed, so `last_call_return_decoded` cannot miss. -/
def Session.call_internal {σ V : Type} (ops : SandboxOps σ) (dec : Bytes → Except String V)
    (s : Session σ) (address : Option Addr) (message : String) (args : List String)
    (endowment : Option Nat) : Session σ × Except SessionError V :=
  match s.resolve_addr address with
  | none => (s, .error .NoContract)
  | some address =>
    match s.transcoders.get address with
    | none => (s, .error .NoTranscoder)
    | some transcoder =>
      match transcoder.encode message args with
      | .error err => (s, .error (.Encoding err))
      | .ok data =>
        let step := Session.record_events ops s (fun sess =>
          let res := ops.call_contract sess.sandbox
            (Session.call_args ops sess address data endowment)
          ({ sess with sandbox := res.1 }, res.2))
        let s1 := step.1
        let result := step.2
        let step2 : Session σ × Except SessionError V :=
          match result.result with
          | .ok exec_result =>
            if exec_result.did_revert then
              (s1, .error (.CallReverted exec_result.data))
            else
              let s2 := { s1 with record := s1.record.push_call_return exec_result.data }
              (s2, (s2.record.last_call_return_decoded dec).getD (.error (.Decoding "no call returns")))
          | .error err => (s1, .error (.CallFailed err))
        ({ step2.1 with record := step2.1.record.push_call_result result }, step2.2)

/-! ## Mocking API (`src/drink/src/session/mocking_api.rs`) -/

/-- The wat source of the fixed dummy contract (one no-op constructor, one
unreachable call body). -/
def DUMMY_CONTRACT : String :=
  "(module (import \"env\" \"memory\" (memory 1 1)) (func (export \"deploy\")) (func (export \"call\") (unreachable)))"

/-- The `DeployArgs` of the dummy-contract deployment performed by
`MockingApi::deploy`: the parsed fixed dummy body, zero endowment, empty
constructor data, the fresh salt, the DEFAULT actor's origin (not the
session's current actor), the default gas limit and an unchecked deposit
limit. -/
def mockDeployArgs {σ : Type} (ops : SandboxOps σ) (s : Session σ) : DeployArgs :=
  { contract_bytes := ops.parse_wat DUMMY_CONTRACT
    value := 0
    data := []
    salt := some (s.mocks.salt).2
    origin := ops.convert_account_to_origin ops.default_actor
    gas_limit := ops.default_gas_limit
    storage_deposit_limit := .Unchecked }

namespace MockingApi

/-- `MockingApi::deploy` for `Session`: fresh salt from the registry nonce,
dummy-contract deployment through the real sandbox under the DEFAULT actor's
origin with default gas and an unchecked deposit limit, then registration of
the resulting address in the mock registry.  `none` models the
`expect("Deployment of a dummy contract should succeed")` panic. -/
def deploy {σ : Type} (ops : SandboxOps σ) (s : Session σ) (mock : ContractMock) :
    Option (Session σ × Addr) :=
  let saltStep := s.mocks.salt
  let s1 := { s with mocks := saltStep.1 }
  let res := ops.deploy_contract s1.sandbox (mockDeployArgs ops s)
  match res.2.result with
  | .error _ => none
  | .ok exec_result =>
    let mock_address := exec_result.addr
    some ({ s1 with
              sandbox := res.1
              mocks := (s1.mocks.register mock_address mock).1 },
          mock_address)

end MockingApi

/-! ## Session operation sequences

A deep syntax of the public mutating operations, so that invariants can be
stated over every sequence of session interactions. -/

/-- One public mutating `Session` operation. -/
inductive SessionOp where
  | deploy (contract_bytes : Bytes) (constructor : String) (args : List String)
      (salt : Option Bytes) (endowment : Option Nat) (transcoder : ContractMessageTranscoder)
  | call (address : Option Addr) (message : String) (args : List String) (endowment : Option Nat)
  | upload (contract_bytes : Bytes)
  | set_actor (actor : Account)
  | with_actor (actor : Account)
  | set_gas_limit (gas_limit : Nat)
  | set_storage_deposit_limit (l : Nat)
  | set_transcoder (address : Addr) (transcoder : ContractMessageTranscoder)
  | deploy_mock (mock : ContractMock)

/-- Run one operation, keeping the resulting session state.  The decoded call
result is discarded (as `call_and` does), so the decoder is the trivial one.
For `deploy_mock`, `none` (the dummy-deployment panic) aborts the run; the
pre-panic state is kept, which is conservative for state invariants. -/
def runOp {σ : Type} (ops : SandboxOps σ) (s : Session σ) : SessionOp → Session σ
  | .deploy cb c a sa e t => (Session.deploy ops s cb c a sa e t).1
  | .call addr m a e =>
      (Session.call_internal ops (fun _ => (.ok () : Except String Unit)) s addr m a e).1
  | .upload cb => (Session.upload ops s cb).1
  | .set_actor a => (Session.set_actor ops s a).1
  | .with_actor a => s.with_actor a
  | .set_gas_limit g => (s.set_gas_limit g).1
  | .set_storage_deposit_limit l => (s.set_storage_deposit_limit l).1
  | .set_transcoder a t => s.set_transcoder a t
  | .deploy_mock m =>
      match MockingApi.deploy ops s m with
      | some p => p.1
      | none => s

/-- Run a sequence of operations. -/
def runOps {σ : Type} (ops : SandboxOps σ) : List SessionOp → Session σ → Session σ
  | [], s => s
  | op :: rest, s => runOps ops rest (runOp ops s op)

/-- A recorded deploy outcome counts as successful when the sandbox reached
execution and the constructor did not revert (`Session::deploy`'s success
branch). -/
def inst_success (r : ContractResultInstantiate) : Bool :=
  match r.result with
  | .ok exec_result => ! exec_result.result.did_revert
  | .error _ => false

/-- The record-level deploy bookkeeping invariant: the addresses pushed are
exactly one per successful recorded deploy. -/
def recordInvariant (r : Record) : Prop :=
  r.deploy_returns.length = (r.deploy_results.filter inst_success).length

/-! ## A small concrete sandbox model, for witnesses and counterexamples -/

/-- Concrete sandbox state: the global event log plus the log of mapped
origins. -/
structure ExSt where
  log : List Event
  mapped : List Origin
  deriving DecidableEq

/-- Concrete sandbox operations: deploying appends event `1` and returns
`dres`; calling appends event `2` and returns `cres`; origins are the
accounts themselves; the default actor is `7`. -/
def exOps (dres : ContractResultInstantiate) (cres : ContractExecResult) : SandboxOps ExSt :=
  { deploy_contract := fun st _ => ({ st with log := st.log ++ [1] }, dres)
    call_contract := fun st _ => ({ st with log := st.log ++ [2] }, cres)
    upload_contract := fun st _ _ _ => (st, .ok 5)
    events := fun st => st.log
    convert_account_to_origin := fun a => a
    default_actor := 7
    default_gas_limit := 11
    map_account := fun st o => { st with mapped := st.mapped ++ [o] }
    parse_wat := fun _ => [0] }

/-- A successful instantiation outcome at address `addr`. -/
def okInst (addr : Addr) : ContractResultInstantiate :=
  { result := .ok { result := { did_revert := false, data := [] }, addr := addr } }

/-- A reverted instantiation outcome. -/
def revInst : ContractResultInstantiate :=
  { result := .ok { result := { did_revert := true, data := [4] }, addr := 99 } }

/-- A dispatch-failed instantiation outcome. -/
def errInst : ContractResultInstantiate := { result := .error 13 }

/-- A successful call outcome with output `data`. -/
def okExec (data : Bytes) : ContractExecResult :=
  { result := .ok { did_revert := false, data := data } }

/-- A reverted call outcome with revert payload `data`. -/
def revExec (data : Bytes) : ContractExecResult :=
  { result := .ok { did_revert := true, data := data } }

/-- A transcoder whose `encode` always succeeds with `[9]`. -/
def exTr : ContractMessageTranscoder := { encode := fun _ _ => .ok [9] }

/-- A transcoder whose `encode` always fails. -/
def badTr : ContractMessageTranscoder := { encode := fun _ _ => .error "enc" }

/-- A trivial decoder for call returns. -/
def exDec : Bytes → Except String Nat := fun b => .ok b.length

/-- The concrete sandbox model used by witnesses: successful deploys land at
address `100`, successful calls return `[3]`. -/
def c1ops : SandboxOps ExSt := exOps (okInst 100) (okExec [3])

/-- A freshly constructed default session over the concrete model. -/
def c1s0 : Session ExSt := Session.mkDefault c1ops { log := [], mapped := [] }

/-! ## Helper lemmas -/

/-- The salt layout: the nonce in the low byte, 31 zero bytes above. -/
def mkSalt (v : Nat) : Bytes := v :: List.replicate 31 0

lemma salts_formula (r : MockRegistry) (n : Nat) :
    salts r n = (List.range n).map (fun k => mkSalt ((r.nonce + k + 1) % 256)) := by
  induction n generalizing r with
  | zero => simp [salts]
  | succ n ih =>
    rw [List.range_succ_eq_map]
    simp only [salts, MockRegistry.salt, List.map_cons, List.map_map]
    refine congrArg₂ _ rfl ?_
    rw [ih]
    refine List.map_congr_left ?_
    intro k _
    simp only [Function.comp_apply, mkSalt]
    refine congrArg₂ _ ?_ rfl
    omega

lemma mkSalt_inj {x y : Nat} (h : mkSalt x = mkSalt y) : x = y := by
  simpa [mkSalt] using h

lemma natLEBytes_length (n x : Nat) : (natLEBytes n x).length = n := by
  simp [natLEBytes]

lemma blake2_256_length (msg : Bytes) : (blake2_256 msg).length = 32 := by
  simp [blake2_256, List.range_succ, natLEBytes_length]

lemma filter_length_split {α : Type} (p : α → Bool) (l : List α) :
    (l.filter p).length + (l.filter (fun x => ! p x)).length = l.length := by
  induction l with
  | nil => simp
  | cons x xs ih => cases hx : p x <;> simp [List.filter_cons, hx] <;> omega

lemma last_call_return_decoded_push {V : Type} (dec : Bytes → Except String V)
    (r : Record) (d : Bytes) :
    (r.push_call_return d).last_call_return_decoded dec
      = some ((dec d).mapError (fun e => SessionError.Decoding e)) := by
  simp [Record.last_call_return_decoded, Record.last_call_return, Record.push_call_return,
    List.getLast?_concat]

/-! ## Claim theorems -/

/-- C7: each of the Record's last-element accessors hits its modelled panic
(`none`) exactly when the corresponding sequence is empty, and after a push
it returns the element just pushed (the most recent one). -/
theorem record_last_accessor_spec (r : Record) :
    (r.last_deploy_result = none ↔ r.deploy_results = [])
    ∧ (∀ x, (r.push_deploy_result x).last_deploy_result = some x)
    ∧ (r.last_deploy_return = none ↔ r.deploy_returns = [])
    ∧ (∀ x, (r.push_deploy_return x).last_deploy_return = some x)
    ∧ (r.last_call_result = none ↔ r.call_results = [])
    ∧ (∀ x, (r.push_call_result x).last_call_result = some x)
    ∧ (r.last_call_return = none ↔ r.call_returns = [])
    ∧ (∀ x, (r.push_call_return x).last_call_return = some x)
    ∧ (r.last_event_batch = none ↔ r.event_batches = [])
    ∧ (∀ x, (r.push_event_batches x).last_event_batch = some x) := by
  refine ⟨?_, ?_, ?_, ?_, ?_, ?_, ?_, ?_, ?_, ?_⟩ <;>
    simp [Record.last_deploy_result, Record.push_deploy_result,
      Record.last_deploy_return, Record.push_deploy_return,
      Record.last_call_result, Record.push_call_result,
      Record.last_call_return, Record.push_call_return,
      Record.last_event_batch, Record.push_event_batches,
      List.getLast?_eq_none_iff, List.getLast?_concat]

set_option maxRecDepth 20000 in
/-- BLAKE2b-256 known-answer test: the empty message (RFC 7693 parameters,
32-byte digest, no key). -/
theorem blake2_256_empty_vector :
    blake2_256 [] = [0x0e, 0x57, 0x51, 0xc0, 0x26, 0xe5, 0x43, 0xb2, 0xe8, 0xab, 0x2e, 0xb0,
      0x60, 0x99, 0xda, 0xa1, 0xd1, 0xe5, 0xdf, 0x47, 0x77, 0x8f, 0x77, 0x87, 0xfa, 0xab,
      0x45, 0xcd, 0xf1, 0x2f, 0xe3, 0xa8] := by decide

set_option maxRecDepth 20000 in
/-- BLAKE2b-256 known-answer test: the message `"abc"`. -/
theorem blake2_256_abc_vector :
    blake2_256 [0x61, 0x62, 0x63]
      = [0xbd, 0xdd, 0x81, 0x3c, 0x63, 0x42, 0x39, 0x72, 0x31, 0x71, 0xef, 0x3f, 0xee, 0x98,
         0x57, 0x9b, 0x94, 0x96, 0x4e, 0x3b, 0xb1, 0xcb, 0x3e, 0x42, 0x72, 0x62, 0xc8, 0xc0,
         0x68, 0xd5, 0x23, 0x19] := by decide

set_option maxRecDepth 40000 in
/-- BLAKE2b-256 known-answer test exercising the multi-block loop:
129 bytes of `0x61`. -/
theorem blake2_256_two_block_vector :
    (blake2_256 (List.replicate 129 0x61)).take 8
      = [0x2f, 0x64, 0x74, 0x4a, 0x6d, 0xe0, 0xd2, 0xc0] := by decide

/-- C9: the CLI selector of a message name is exactly the first 4 bytes of
the (truncated) 256-bit BLAKE2b digest of the name's UTF-8 bytes. -/
theorem selector_is_blake2_prefix (name : String) :
    compute_selector name = (blake2_256 (strBytes name)).take 4
    ∧ (blake2_256 (strBytes name)).length = 32
    ∧ (compute_selector name).length = 4 := by
  refine ⟨rfl, blake2_256_length _, ?_⟩
  simp [compute_selector, List.length_take, blake2_256_length]

/-- C1 (code bug): after `set_actor(8)` on a fresh default session (default
actor `7`, origins the identity on accounts), the session's actor is `8` but
its `origin` field is the origin of the PREVIOUS actor `7` — not
`convert_account_to_origin(8)` — and the account mapped with the sandbox is
again the previous actor's; `with_actor` leaves `origin` untouched
altogether.  The source derives the origin from the shadowed result of
`mem::replace`, i.e. from the old actor. -/
theorem set_actor_stale_origin :
    ((Session.set_actor c1ops c1s0 8).1.actor = 8)
    ∧ ((Session.set_actor c1ops c1s0 8).1.origin = c1ops.convert_account_to_origin 7)
    ∧ ((Session.set_actor c1ops c1s0 8).1.origin ≠ c1ops.convert_account_to_origin 8)
    ∧ ((Session.set_actor c1ops c1s0 8).1.sandbox.mapped = [7, 7])
    ∧ ((c1s0.with_actor 8).origin = c1s0.origin)
    ∧ ((c1s0.with_actor 8).actor = 8) := by
  refine ⟨rfl, rfl, by decide, rfl, rfl, rfl⟩

/-- C3, counterexample: the nonce is a `u8`, so over 257 consecutive calls
the salts repeat (the 1st and the 257th are both `mkSalt 1`); the claim's
"for every N ... pairwise distinct" is false at N = 257. -/
theorem salt_wraparound_counterexample :
    ¬ List.Pairwise (fun a b => a ≠ b) (salts MockRegistry.new 257) := by
  intro h
  rw [salts_formula, List.pairwise_map, List.pairwise_iff_get] at h
  have hlen : (List.range 257).length = 257 := List.length_range 257
  have h2 := h ⟨0, by rw [hlen]; omega⟩ ⟨256, by rw [hlen]; omega⟩ (Fin.mk_lt_mk.mpr (by omega))
  apply h2
  rw [List.get_eq_getElem, List.get_eq_getElem, List.getElem_range, List.getElem_range]
  show mkSalt ((MockRegistry.new.nonce + 0 + 1) % 256) = mkSalt ((MockRegistry.new.nonce + 256 + 1) % 256)
  norm_num [MockRegistry.new]

/-- C3 (amended): each `salt()` call advances the `u8` nonce by one modulo
256 and yields the 32-byte salt with the nonce little-endian in the low byte
and zeros above; consequently up to 256 consecutive salts (from any starting
nonce) are pairwise distinct — the bound `N ≤ 256` is forced by the `u8`
wrap-around. -/
theorem salt_nonce_uniqueness (r : MockRegistry) (n : Nat) (hn : n ≤ 256) :
    ((r.salt).1.nonce = (r.nonce + 1) % 256
      ∧ (r.salt).2 = ((r.nonce + 1) % 256) :: List.replicate 31 0
      ∧ ((r.salt).2).length = 32)
    ∧ List.Pairwise (fun a b => a ≠ b) (salts r n) := by
  refine ⟨⟨rfl, rfl, by simp [MockRegistry.salt]⟩, ?_⟩
  rw [salts_formula, List.pairwise_map]
  refine List.Pairwise.imp_of_mem ?_ (List.pairwise_lt_range n)
  intro a b ha hb hlt heq
  have hb' : b < n := List.mem_range.1 hb
  have := mkSalt_inj heq
  omega

/-- Witness for C3's amended theorem at `N = 3` on a fresh registry. -/
theorem salt_nonce_uniqueness_witness :
    (3 ≤ 256) ∧ List.Pairwise (fun a b => a ≠ b) (salts MockRegistry.new 3) :=
  ⟨by decide, (salt_nonce_uniqueness MockRegistry.new 3 (by decide)).2⟩

/-- Concrete model where calls revert with payload `[1, 2]`. -/
def c5ops : SandboxOps ExSt := exOps (okInst 100) (revExec [1, 2])

/-- A default session over `c5ops` with `exTr` registered for address `50`. -/
def c5s : Session ExSt :=
  (Session.mkDefault c5ops { log := [], mapped := [] }).set_transcoder 50 exTr

/-- A session whose record lists address `60` as deployed but with no
transcoder registered for it. -/
def c6s : Session ExSt :=
  { c1s0 with record := { Record.empty with deploy_returns := [60] } }

/-- A session with the always-failing transcoder registered for address `50`. -/
def c10s : Session ExSt := c1s0.set_transcoder 50 badTr

/-- C2: the batch pushed by `record_events` is exactly the suffix the
operation appended to the sandbox's (append-only) global event log — the
slice from the pre-snapshot length to the post length — with nothing from
before the snapshot, and exactly one batch is appended per sandbox-invoking
deploy or call. -/
theorem event_batch_boundary {σ : Type} (ops : SandboxOps σ) (s : Session σ) :
    (∀ (α : Type) (recording : Session σ → Session σ × α) (Δ : List Event),
      ops.events (recording s).1.sandbox = ops.events s.sandbox ++ Δ →
      (Session.record_events ops s recording).1.record.event_batches
          = (recording s).1.record.event_batches ++ [Δ]
        ∧ Δ = (ops.events (recording s).1.sandbox).drop (ops.events s.sandbox).length
        ∧ (Session.record_events ops s recording).2 = (recording s).2)
    ∧ (∀ cb c ar sa e t data, t.encode c ar = .ok data →
        (Session.deploy ops s cb c ar sa e t).1.record.event_batches.length
          = s.record.event_batches.length + 1)
    ∧ (∀ (V : Type) (dec : Bytes → Except String V) (a : Addr) m ar e tr data,
        s.transcoders.get a = some tr → tr.encode m ar = .ok data →
        (Session.call_internal ops dec s (some a) m ar e).1.record.event_batches.length
          = s.record.event_batches.length + 1) := by
  refine ⟨?_, ?_, ?_⟩
  · intro α recording Δ h
    have hΔ : (ops.events (recording s).1.sandbox).drop (ops.events s.sandbox).length = Δ := by
      rw [h, List.drop_left]
    refine ⟨?_, hΔ.symm, rfl⟩
    simp [Session.record_events, Record.push_event_batches, hΔ]
  · intro cb c ar sa e t data henc
    simp only [Session.deploy, henc, Session.record_events]
    cases hres : (ops.deploy_contract s.sandbox (Session.deploy_args ops s cb data sa e)).2.result with
    | error err =>
      simp [hres, Record.push_deploy_result, Record.push_event_batches]
    | ok er =>
      cases hrev : er.result.did_revert <;>
        simp [hres, hrev, Record.push_deploy_result, Record.push_deploy_return,
          Record.push_event_batches]
  · intro V dec a m ar e tr data htr henc
    simp only [Session.call_internal, Session.resolve_addr, htr, henc, Session.record_events]
    cases hres : (ops.call_contract s.sandbox (Session.call_args ops s a data e)).2.result with
    | error err =>
      simp [hres, Record.push_call_result, Record.push_event_batches]
    | ok er =>
      cases hrev : er.did_revert <;>
        simp [hres, hrev, Record.push_call_result, Record.push_call_return,
          Record.push_event_batches, Record.last_call_return_decoded, Record.last_call_return]

/-- Witness for C2 on the concrete model: a recording step that appends
event `5` yields the batch `[5]`, and one real deploy pushes exactly one
batch. -/
theorem event_batch_boundary_witness :
    (Session.record_events c1ops c1s0 (fun sess =>
        ({ sess with sandbox := { sess.sandbox with log := sess.sandbox.log ++ [5] } },
         (42 : Nat)))).1.record.event_batches = [[5]]
    ∧ (Session.deploy c1ops c1s0 [] "new" [] none none exTr).1.record.event_batches.length = 1 := by
  have h := event_batch_boundary c1ops c1s0
  have h1 := h.1 Nat
    (fun sess =>
      ({ sess with sandbox := { sess.sandbox with log := sess.sandbox.log ++ [5] } },
       (42 : Nat)))
    [5] rfl
  refine ⟨h1.1.trans (by rfl), ?_⟩
  exact (h.2.1 [] "new" [] none none exTr [9] rfl).trans (by rfl)

/-- Helper for C6: once the target address is resolved, `call_internal` can
fail in many ways but never with `NoContract`. -/
lemma call_internal_resolved_ne_nocontract {σ V : Type} (ops : SandboxOps σ)
    (dec : Bytes → Except String V) (s : Session σ) (address : Option Addr) (a : Addr)
    (m : String) (ar : List String) (e : Option Nat)
    (hres : s.resolve_addr address = some a) :
    (Session.call_internal ops dec s address m ar e).2 ≠ .error .NoContract := by
  simp only [Session.call_internal, hres]
  cases htr : s.transcoders.get a with
  | none => simp [htr]
  | some tr =>
    cases henc : tr.encode m ar with
    | error err => simp [htr, henc]
    | ok data =>
      simp only [htr, henc, Session.record_events]
      cases hcr : (ops.call_contract s.sandbox (Session.call_args ops s a data e)).2.result with
      | error err => simp [hcr]
      | ok er =>
        cases hrev : er.did_revert with
        | true => simp [hcr, hrev]
        | false =>
          simp [hcr, hrev, last_call_return_decoded_push]
          cases dec er.data <;> simp [Except.mapError]

/-- C6: a call without an explicit target fails with `NoContract` exactly
when nothing has been (successfully) deployed this session; otherwise it
behaves identically to a call targeting the most recently deployed address,
and fails with `NoTranscoder` when that address has no registered
transcoder. -/
theorem implicit_target_resolution {σ V : Type} (ops : SandboxOps σ)
    (dec : Bytes → Except String V) (s : Session σ) (message : String)
    (args : List String) (endowment : Option Nat) :
    ((Session.call_internal ops dec s none message args endowment).2 = .error .NoContract
        ↔ s.record.deploy_returns = [])
    ∧ (∀ a, s.record.deploy_returns.getLast? = some a →
        (Session.call_internal ops dec s none message args endowment
            = Session.call_internal ops dec s (some a) message args endowment)
        ∧ (s.transcoders.get a = none →
            Session.call_internal ops dec s none message args endowment
              = (s, .error .NoTranscoder))) := by
  constructor
  · constructor
    · intro h
      by_contra hne
      cases hl : s.record.deploy_returns.getLast? with
      | none => exact hne (List.getLast?_eq_none_iff.1 hl)
      | some a =>
        exact call_internal_resolved_ne_nocontract ops dec s none a message args endowment
          (by simp [Session.resolve_addr, hl]) h
    · intro h
      simp [Session.call_internal, Session.resolve_addr, h]
  · intro a ha
    constructor
    · simp [Session.call_internal, Session.resolve_addr, ha]
    · intro hnone
      simp [Session.call_internal, Session.resolve_addr, ha, hnone]

/-- Witness for C6: on a fresh session the implicit call fails with
`NoContract`; on a session with `60` deployed but no transcoder it fails
with `NoTranscoder`. -/
theorem implicit_target_resolution_witness :
    (Session.call_internal c1ops exDec c1s0 none "m" [] none).2 = .error .NoContract
    ∧ Session.call_internal c1ops exDec c6s none "m" [] none = (c6s, .error .NoTranscoder) := by
  refine ⟨(implicit_target_resolution c1ops exDec c1s0 "m" [] none).1.mpr rfl, ?_⟩
  exact ((implicit_target_resolution c1ops exDec c6s "m" [] none).2 60 rfl).2 rfl

/-- C5: when the sandbox execution completes with the revert flag set, the
call returns `CallReverted` wrapping exactly the raw output bytes, and the
Record's call-returns sequence is untouched. -/
theorem call_revert_payload {σ V : Type} (ops : SandboxOps σ) (dec : Bytes → Except String V)
    (s : Session σ) (address : Option Addr) (message : String) (args : List String)
    (endowment : Option Nat) (a : Addr) (tr : ContractMessageTranscoder) (data : Bytes)
    (er : ExecReturnValue)
    (hres : s.resolve_addr address = some a)
    (htr : s.transcoders.get a = some tr)
    (henc : tr.encode message args = .ok data)
    (hcall : (ops.call_contract s.sandbox (Session.call_args ops s a data endowment)).2.result
        = .ok er)
    (hrev : er.did_revert = true) :
    (Session.call_internal ops dec s address message args endowment).2
        = .error (.CallReverted er.data)
    ∧ (Session.call_internal ops dec s address message args endowment).1.record.call_returns
        = s.record.call_returns := by
  simp only [Session.call_internal, hres, htr, henc, Session.record_events]
  simp [hcall, hrev, Record.push_call_result, Record.push_event_batches]

/-- Witness for C5: a reverting call on the concrete model surfaces
`CallReverted [1, 2]` and appends nothing to the call-returns sequence. -/
theorem call_revert_payload_witness :
    (Session.call_internal c5ops exDec c5s (some 50) "m" [] none).2
        = .error (.CallReverted [1, 2])
    ∧ (Session.call_internal c5ops exDec c5s (some 50) "m" [] none).1.record.call_returns
        = [] := by
  have h := call_revert_payload c5ops exDec c5s (some 50) "m" [] none 50 exTr [9]
    { did_revert := true, data := [1, 2] } rfl rfl rfl rfl rfl
  exact ⟨h.1, h.2.trans (by rfl)⟩

/-- C10: the pre-invocation failure paths (encoding failure on deploy;
`NoContract`, `NoTranscoder`, or encoding failure on call) return the error
with the entire session — record included — unchanged. -/
theorem pre_invocation_atomicity {σ V : Type} (ops : SandboxOps σ)
    (dec : Bytes → Except String V) (s : Session σ) :
    (∀ cb c ar sa e t msg, t.encode c ar = .error msg →
        Session.deploy ops s cb c ar sa e t = (s, .error (.Encoding msg)))
    ∧ (∀ m ar e, s.record.deploy_returns = [] →
        Session.call_internal ops dec s none m ar e = (s, .error .NoContract))
    ∧ (∀ a m ar e, s.transcoders.get a = none →
        Session.call_internal ops dec s (some a) m ar e = (s, .error .NoTranscoder))
    ∧ (∀ a m ar e tr msg, s.transcoders.get a = some tr → tr.encode m ar = .error msg →
        Session.call_internal ops dec s (some a) m ar e = (s, .error (.Encoding msg))) := by
  refine ⟨?_, ?_, ?_, ?_⟩
  · intro cb c ar sa e t msg henc
    simp [Session.deploy, henc]
  · intro m ar e h
    simp [Session.call_internal, Session.resolve_addr, h]
  · intro a m ar e h
    simp [Session.call_internal, Session.resolve_addr, h]
  · intro a m ar e tr msg htr henc
    simp [Session.call_internal, Session.resolve_addr, htr, henc]

/-- Helper for C4: the record/registry deltas of one deploy that reaches the
sandbox (arguments successfully encoded). -/
lemma deploy_record_delta {σ : Type} (ops : SandboxOps σ) (s : Session σ)
    (cb : Bytes) (c : String) (ar : List String) (sa : Option Bytes) (e : Option Nat)
    (t : ContractMessageTranscoder) (data : Bytes) (henc : t.encode c ar = .ok data) :
    (Session.deploy ops s cb c ar sa e t).1.record.deploy_results
        = s.record.deploy_results
          ++ [(ops.deploy_contract s.sandbox (Session.deploy_args ops s cb data sa e)).2]
    ∧ (∀ er, (ops.deploy_contract s.sandbox (Session.deploy_args ops s cb data sa e)).2.result
          = .ok er →
        er.result.did_revert = false →
        (Session.deploy ops s cb c ar sa e t).1.record.deploy_returns
            = s.record.deploy_returns ++ [er.addr]
          ∧ (Session.deploy ops s cb c ar sa e t).1.transcoders.get er.addr = some t
          ∧ (Session.deploy ops s cb c ar sa e t).2 = .ok er.addr)
    ∧ (inst_success (ops.deploy_contract s.sandbox (Session.deploy_args ops s cb data sa e)).2
          = false →
        (Session.deploy ops s cb c ar sa e t).1.record.deploy_returns
            = s.record.deploy_returns
          ∧ (Session.deploy ops s cb c ar sa e t).1.transcoders = s.transcoders) := by
  refine ⟨?_, ?_, ?_⟩
  · simp only [Session.deploy, henc, Session.record_events]
    cases hres : (ops.deploy_contract s.sandbox
        (Session.deploy_args ops s cb data sa e)).2.result with
    | error err =>
      simp [hres, Record.push_deploy_result, Record.push_event_batches]
    | ok er =>
      cases hrev : er.result.did_revert <;>
        simp [hres, hrev, Record.push_deploy_result, Record.push_deploy_return,
          Record.push_event_batches]
  · intro er hok hrev
    simp only [Session.deploy, henc, Session.record_events]
    simp [hok, hrev, Record.push_deploy_result, Record.push_deploy_return,
      Record.push_event_batches, TranscoderRegistry.register, TranscoderRegistry.get,
      List.lookup]
  · intro hfail
    simp only [Session.deploy, henc, Session.record_events]
    cases hres : (ops.deploy_contract s.sandbox
        (Session.deploy_args ops s cb data sa e)).2.result with
    | error err =>
      simp [hres, Record.push_deploy_result, Record.push_event_batches]
    | ok er =>
      have hrev : er.result.did_revert = true := by
        unfold inst_success at hfail
        rw [hres] at hfail
        simpa using hfail
      simp [hres, hrev, Record.push_deploy_result, Record.push_event_batches]

/-- Helper for C4: a call never touches the deploy-side record fields. -/
lemma call_internal_deploy_lists {σ V : Type} (ops : SandboxOps σ)
    (dec : Bytes → Except String V) (s : Session σ) (address : Option Addr)
    (m : String) (ar : List String) (e : Option Nat) :
    (Session.call_internal ops dec s address m ar e).1.record.deploy_results
        = s.record.deploy_results
    ∧ (Session.call_internal ops dec s address m ar e).1.record.deploy_returns
        = s.record.deploy_returns := by
  unfold Session.call_internal
  cases hres : s.resolve_addr address with
  | none => simp [hres]
  | some a =>
    cases htr : s.transcoders.get a with
    | none => simp [hres, htr]
    | some tr =>
      cases henc : tr.encode m ar with
      | error err => simp [hres, htr, henc]
      | ok data =>
        simp only [hres, htr, henc, Session.record_events]
        cases hcr : (ops.call_contract s.sandbox (Session.call_args ops s a data e)).2.result with
        | error err =>
          simp [hcr, Record.push_call_result, Record.push_event_batches]
        | ok er =>
          cases hrev : er.did_revert <;>
            simp [hcr, hrev, Record.push_call_result, Record.push_call_return,
              Record.push_event_batches]

/-- Helper for C4: a mock deployment never touches the record. -/
lemma mock_deploy_record {σ : Type} (ops : SandboxOps σ) (s : Session σ) (m : ContractMock)
    (p : Session σ × Addr) (h : MockingApi.deploy ops s m = some p) :
    p.1.record = s.record := by
  unfold MockingApi.deploy at h
  cases hr : (ops.deploy_contract s.sandbox (mockDeployArgs ops s)).2.result with
  | error err => simp [hr] at h
  | ok er =>
    simp only [hr, Option.some.injEq] at h
    rw [← h]

/-- Helper for C4: every session operation preserves the deploy bookkeeping
invariant. -/
lemma runOp_record_invariant {σ : Type} (ops : SandboxOps σ) (s : Session σ) (op : SessionOp)
    (h : recordInvariant s.record) : recordInvariant (runOp ops s op).record := by
  cases op with
  | deploy cb c ar sa e t =>
    show recordInvariant (Session.deploy ops s cb c ar sa e t).1.record
    cases henc : t.encode c ar with
    | error msg =>
      have : Session.deploy ops s cb c ar sa e t = (s, .error (.Encoding msg)) := by
        simp [Session.deploy, henc]
      rw [this]
      exact h
    | ok data =>
      have hd := deploy_record_delta ops s cb c ar sa e t data henc
      unfold recordInvariant at h ⊢
      cases hs : inst_success
          (ops.deploy_contract s.sandbox (Session.deploy_args ops s cb data sa e)).2 with
      | false =>
        obtain ⟨hret, -⟩ := hd.2.2 hs
        rw [hd.1, hret, List.filter_append]
        simp [List.filter, hs, h]
      | true =>
        have hok : ∃ er, (ops.deploy_contract s.sandbox
            (Session.deploy_args ops s cb data sa e)).2.result = .ok er
              ∧ er.result.did_revert = false := by
          unfold inst_success at hs
          cases hr : (ops.deploy_contract s.sandbox
              (Session.deploy_args ops s cb data sa e)).2.result with
          | error err => rw [hr] at hs; simp at hs
          | ok er => rw [hr] at hs; exact ⟨er, rfl, by simpa using hs⟩
        obtain ⟨er, hok, hrev⟩ := hok
        obtain ⟨hret, -, -⟩ := hd.2.1 er hok hrev
        rw [hd.1, hret, List.filter_append]
        simp [List.filter, hs, h]
  | call addr m ar e =>
    have hc := call_internal_deploy_lists ops (fun _ => (.ok () : Except String Unit)) s addr m ar e
    show recordInvariant
      (Session.call_internal ops (fun _ => (.ok () : Except String Unit)) s addr m ar e).1.record
    unfold recordInvariant at h ⊢
    rw [hc.1, hc.2]
    exact h
  | upload cb => exact h
  | set_actor a => exact h
  | with_actor a => exact h
  | set_gas_limit g => exact h
  | set_storage_deposit_limit l => exact h
  | set_transcoder a t => exact h
  | deploy_mock m =>
    show recordInvariant (match MockingApi.deploy ops s m with
      | some p => p.1
      | none => s).record
    cases hd : MockingApi.deploy ops s m with
    | none => simpa using h
    | some p =>
      have hrec := mock_deploy_record ops s m p hd
      simp only [hrec]
      exact h

/-- Helper for C4: the invariant is preserved along any operation sequence. -/
lemma runOps_record_invariant {σ : Type} (ops : SandboxOps σ) (l : List SessionOp)
    (s : Session σ) (h : recordInvariant s.record) :
    recordInvariant (runOps ops l s).record := by
  induction l generalizing s with
  | nil => exact h
  | cons op rest ih => exact ih _ (runOp_record_invariant ops s op h)

/-- Helper for C4: arithmetic consequences of the invariant. -/
lemma recordInvariant_consequences (r : Record) (h : recordInvariant r) :
    r.deploy_results.length ≥ r.deploy_returns.length
    ∧ r.deploy_results.length - r.deploy_returns.length
        = (r.deploy_results.filter (fun x => ! inst_success x)).length := by
  have := filter_length_split inst_success r.deploy_results
  unfold recordInvariant at h
  omega

/-- C4: a deploy that reaches the sandbox always pushes the full result;
only on success (no revert, no dispatch failure) does it also push the
address and register the supplied transcoder for it; and along every
operation sequence from a fresh session the deploy-returns sequence stays
exactly one entry per successful recorded deploy, so
`deploy_results.length ≥ deploy_returns.length` with the difference equal to
the number of unsuccessful recorded deploys. -/
theorem deploy_record_bookkeeping {σ : Type} (ops : SandboxOps σ) :
    (∀ (s : Session σ) cb c ar sa e t data, t.encode c ar = .ok data →
      ((Session.deploy ops s cb c ar sa e t).1.record.deploy_results
          = s.record.deploy_results
            ++ [(ops.deploy_contract s.sandbox (Session.deploy_args ops s cb data sa e)).2]
        ∧ (∀ er, (ops.deploy_contract s.sandbox
              (Session.deploy_args ops s cb data sa e)).2.result = .ok er →
            er.result.did_revert = false →
            (Session.deploy ops s cb c ar sa e t).1.record.deploy_returns
                = s.record.deploy_returns ++ [er.addr]
              ∧ (Session.deploy ops s cb c ar sa e t).1.transcoders.get er.addr = some t
              ∧ (Session.deploy ops s cb c ar sa e t).2 = .ok er.addr)
        ∧ (inst_success (ops.deploy_contract s.sandbox
              (Session.deploy_args ops s cb data sa e)).2 = false →
            (Session.deploy ops s cb c ar sa e t).1.record.deploy_returns
                = s.record.deploy_returns
              ∧ (Session.deploy ops s cb c ar sa e t).1.transcoders = s.transcoders)))
    ∧ (∀ (sandbox0 : σ) (l : List SessionOp),
        recordInvariant (runOps ops l (Session.mkDefault ops sandbox0)).record
        ∧ (runOps ops l (Session.mkDefault ops sandbox0)).record.deploy_results.length
            ≥ (runOps ops l (Session.mkDefault ops sandbox0)).record.deploy_returns.length
        ∧ (runOps ops l (Session.mkDefault ops sandbox0)).record.deploy_results.length
            - (runOps ops l (Session.mkDefault ops sandbox0)).record.deploy_returns.length
          = ((runOps ops l (Session.mkDefault ops sandbox0)).record.deploy_results.filter
              (fun x => ! inst_success x)).length) := by
  constructor
  · intro s cb c ar sa e t data henc
    exact deploy_record_delta ops s cb c ar sa e t data henc
  · intro sandbox0 l
    have hinv := runOps_record_invariant ops l (Session.mkDefault ops sandbox0)
      (by simp [recordInvariant, Session.mkDefault, Record.empty])
    have hc := recordInvariant_consequences _ hinv
    exact ⟨hinv, hc.1, hc.2⟩

/-- Witness for C4: on the concrete model a successful deploy pushes address
`100`, and the invariant holds after a deploy-then-call sequence. -/
theorem deploy_record_bookkeeping_witness :
    (Session.deploy c1ops c1s0 [] "new" [] none none exTr).1.record.deploy_returns = [100]
    ∧ recordInvariant (runOps c1ops
        [SessionOp.deploy [] "new" [] none none exTr, SessionOp.call none "m" [] none]
        (Session.mkDefault c1ops { log := [], mapped := [] })).record := by
  have h := deploy_record_bookkeeping c1ops
  have h1 := ((h.1 c1s0 [] "new" [] none none exTr [9] rfl).2.1
    { result := { did_revert := false, data := [] }, addr := 100 } rfl rfl).1
  exact ⟨h1.trans (by rfl),
    (h.2 { log := [], mapped := [] }
      [SessionOp.deploy [] "new" [] none none exTr, SessionOp.call none "m" [] none]).1⟩

/-- C8: deploying a mock takes a fresh salt (the registry nonce advances by
one), deploys the fixed dummy body through the sandbox with the
`mockDeployArgs` (whose origin is the DEFAULT actor's — the last conjunct
shows the whole operation is invariant under changing the session's current
actor), registers the resulting address to the mock, and returns that
address; the session's record, actor and origin are untouched. -/
theorem mock_deploy_spec {σ : Type} (ops : SandboxOps σ) (s : Session σ) (mock : ContractMock)
    (er : InstantiateReturnValue)
    (hres : (ops.deploy_contract s.sandbox (mockDeployArgs ops s)).2.result = .ok er) :
    (∃ s', MockingApi.deploy ops s mock = some (s', er.addr)
        ∧ s'.mocks.get er.addr = some mock
        ∧ s'.mocks.nonce = (s.mocks.nonce + 1) % 256
        ∧ s'.record = s.record
        ∧ s'.actor = s.actor
        ∧ s'.origin = s.origin
        ∧ s'.sandbox = (ops.deploy_contract s.sandbox (mockDeployArgs ops s)).1)
    ∧ (∀ a', MockingApi.deploy ops (s.with_actor a') mock
        = (MockingApi.deploy ops s mock).map (fun p => (p.1.with_actor a', p.2))) := by
  constructor
  · refine ⟨{ s with
        sandbox := (ops.deploy_contract s.sandbox (mockDeployArgs ops s)).1
        mocks := (((s.mocks.salt).1).register er.addr mock).1 }, ?_, ?_, ?_, rfl, rfl, rfl, rfl⟩
    · simp [MockingApi.deploy, hres]
    · simp [MockRegistry.register, MockRegistry.get, MockRegistry.salt, List.lookup]
    · simp [MockRegistry.register, MockRegistry.salt]
  · intro a'
    have hmocks : (s.with_actor a').mocks = s.mocks := rfl
    have hsb : (s.with_actor a').sandbox = s.sandbox := rfl
    simp only [MockingApi.deploy, mockDeployArgs, hmocks, hsb, Session.with_actor]
    cases hr : (ops.deploy_contract s.sandbox
        { contract_bytes := ops.parse_wat DUMMY_CONTRACT
          value := 0
          data := []
          salt := some (s.mocks.salt).2
          origin := ops.convert_account_to_origin ops.default_actor
          gas_limit := ops.default_gas_limit
          storage_deposit_limit := .Unchecked }).2.result with
    | error err => simp [hr]
    | ok er' => simp [hr]

/-- Witness for C8 on the concrete model: deploying mock `5` returns the
sandbox-chosen address `100` and advances the nonce to `1`. -/
theorem mock_deploy_spec_witness :
    (MockingApi.deploy c1ops c1s0 5).map (fun p => p.2) = some 100
    ∧ (MockingApi.deploy c1ops c1s0 5).map (fun p => p.1.mocks.nonce) = some 1 := by
  obtain ⟨⟨s', h1, _, h3, _⟩, _⟩ := mock_deploy_spec c1ops c1s0 5
    { result := { did_revert := false, data := [] }, addr := 100 } rfl
  rw [h1]
  refine ⟨rfl, ?_⟩
  show some s'.mocks.nonce = some 1
  rw [h3]
  rfl

/-- Witness for C10: each pre-invocation error path at a concrete input,
with the session returned unchanged. -/
theorem pre_invocation_atomicity_witness :
    Session.deploy c1ops c1s0 [] "new" [] none none badTr = (c1s0, .error (.Encoding "enc"))
    ∧ Session.call_internal c1ops exDec c1s0 none "m" [] none = (c1s0, .error .NoContract)
    ∧ Session.call_internal c1ops exDec c6s (some 60) "m" [] none = (c6s, .error .NoTranscoder)
    ∧ Session.call_internal c1ops exDec c10s (some 50) "m" [] none
        = (c10s, .error (.Encoding "enc")) := by
  have h := pre_invocation_atomicity c1ops exDec c1s0
  have h6 := pre_invocation_atomicity c1ops exDec c6s
  have h10 := pre_invocation_atomicity c1ops exDec c10s
  exact ⟨h.1 [] "new" [] none none badTr "enc" rfl,
    h.2.1 "m" [] none rfl,
    h6.2.2.1 60 "m" [] none rfl,
    h10.2.2.2 50 "m" [] none badTr "enc" rfl rfl⟩

end Drink
